import Mathlib

/-!
Verification of the System-Stats-Monitor overlay (src/src/main.rs).

Shallow embedding conventions:
- Timestamps (`Instant`) are natural numbers of milliseconds; `Duration::from_secs(1)`
  is 1000 and `Duration::from_millis(16)` is 16; `a.elapsed()` at time `now` is
  `now - a` (truncated subtraction, matching that real instants are monotone).
- Rust `f32` values are represented by `F32`: rationals plus the IEEE special
  values NaN and the two infinities. Two operation layers exist: `F32.mul`,
  `F32.div` and `F32.ofNat` idealize finite arithmetic as exact rationals
  (adequate where a claim depends only on sign, specials and the saturating
  casts, which are modelled exactly), while `roundF32`, `F32.fmul`, `F32.fdiv`
  and `F32.ofNat64` model binary32 round-to-nearest-even bit-accurately,
  including subnormals and overflow (used where the finite rounding is
  decisive).
- Fallible NVML queries are `Except NvmlError` values; the `?` operator is the
  usual early-return on `.error`.
- `Result::unwrap()` on an error (a Rust panic) is modelled by `Option.none`.
-/

set_option maxRecDepth 8000

/-- Error type of the NVML wrapper; the particular constructor never matters to the
program, which only propagates or unwraps it. -/
inductive NvmlError where
  | notFound : NvmlError
  | unknown : NvmlError
deriving DecidableEq

/-- Idealized `f32`: NaN, plus and minus infinity, or an exact rational. -/
inductive F32 where
  | nan : F32
  | inf : F32
  | neginf : F32
  | val : ℚ → F32
deriving DecidableEq

/-- `u64 as f32` (and small integer literals); idealized as exact. -/
def F32.ofNat (n : ℕ) : F32 := .val (n : ℚ)

/-- IEEE division on the idealized `f32`: finite/0 gives NaN (0/0) or a signed
infinity, finite/finite is exact rational division. -/
def F32.div : F32 → F32 → F32
  | .nan, _ => .nan
  | _, .nan => .nan
  | .inf, .inf => .nan
  | .inf, .neginf => .nan
  | .neginf, .inf => .nan
  | .neginf, .neginf => .nan
  | .inf, .val q => if 0 ≤ q then .inf else .neginf
  | .neginf, .val q => if 0 ≤ q then .neginf else .inf
  | .val _, .inf => .val 0
  | .val _, .neginf => .val 0
  | .val a, .val b =>
      if b = 0 then (if a = 0 then .nan else if 0 < a then .inf else .neginf)
      else .val (a / b)

/-- IEEE multiplication on the idealized `f32`. -/
def F32.mul : F32 → F32 → F32
  | .nan, _ => .nan
  | _, .nan => .nan
  | .inf, .inf => .inf
  | .inf, .neginf => .neginf
  | .neginf, .inf => .neginf
  | .neginf, .neginf => .inf
  | .inf, .val q => if q = 0 then .nan else if 0 < q then .inf else .neginf
  | .val q, .inf => if q = 0 then .nan else if 0 < q then .inf else .neginf
  | .neginf, .val q => if q = 0 then .nan else if 0 < q then .neginf else .inf
  | .val q, .neginf => if q = 0 then .nan else if 0 < q then .neginf else .inf
  | .val a, .val b => .val (a * b)

/-- Rounding half away from zero, the semantics of Rust `f32::round`. -/
def roundHalfAway (q : ℚ) : ℤ := if 0 ≤ q then ⌊q + 1/2⌋ else -⌊-q + 1/2⌋

/-- `f32::round` on the idealized `f32` (NaN and infinities are fixed points). -/
def F32.round : F32 → F32
  | .val q => .val ((roundHalfAway q : ℤ) : ℚ)
  | x => x

/-- Truncation toward zero of a rational, the integral part used by float-to-int
`as` casts in Rust. -/
def ratTrunc (q : ℚ) : ℤ := if 0 ≤ q then ⌊q⌋ else -⌊-q⌋

/-- Rust `as i8` on a float: saturating at the i8 bounds, NaN maps to 0
(defined Rust semantics for float-to-integer `as` casts). -/
def rustAsI8 : F32 → ℤ
  | .nan => 0
  | .inf => 127
  | .neginf => -128
  | .val q => max (-128) (min 127 (ratTrunc q))

/-- `fn bytes_to_gigabytes(bytes: u64) -> f32 { bytes as f32 / 1024000000.0 }`,
idealized over the exact rationals. -/
def bytes_to_gigabytes (bytes : ℕ) : ℚ := (bytes : ℚ) / 1024000000

/-- The percentage expression of `statscheck`:
`((memory_info.used as f32 / memory_info.total as f32) * 100.0).round() as i8`,
under the exact-rational idealization of f32 (see `used_memory_percentage_f32`
for the bit-accurate version). -/
def used_memory_percentage (used total : ℕ) : ℤ :=
  rustAsI8 (F32.round (F32.mul (F32.div (F32.ofNat used) (F32.ofNat total)) (F32.ofNat 100)))

/-- Round a rational to the nearest integer, ties to even — the rounding of the
IEEE-754 default rounding direction. -/
def roundHalfEven (q : ℚ) : ℤ :=
  if q - ⌊q⌋ < 1/2 then ⌊q⌋
  else if 1/2 < q - ⌊q⌋ then ⌊q⌋ + 1
  else if ⌊q⌋ % 2 = 0 then ⌊q⌋ else ⌊q⌋ + 1

/-- The largest finite binary32 value, `(2^24 - 1) * 2^104`. -/
def f32Max : ℚ := 2^128 - 2^104

/-- Binary32 round-to-nearest-even of a positive rational: choose the exponent
that scales the value into the 24-bit mantissa range (clamping at the subnormal
exponent -149), round the scaled value to the nearest integer with ties to even,
and overflow past the largest finite value to infinity. -/
def roundF32pos (q : ℚ) : F32 :=
  let e : ℤ := max (-149) (Int.log 2 q - 23)
  let m : ℤ := roundHalfEven (q * (2:ℚ)^(-e))
  if f32Max < (m : ℚ) * (2:ℚ)^e then .inf else .val ((m : ℚ) * (2:ℚ)^e)

/-- Binary32 round-to-nearest-even of a rational: sign and zero handling around
`roundF32pos`. -/
def roundF32 (q : ℚ) : F32 :=
  if 0 < q then roundF32pos q
  else if q < 0 then
    match roundF32pos (-q) with
    | .inf => .neginf
    | .val v => .val (-v)
    | x => x
  else .val 0

/-- Bit-accurate f32 multiplication: the exact product, correctly rounded to
binary32 (special values as in `F32.mul`). -/
def F32.fmul (x y : F32) : F32 :=
  match F32.mul x y with
  | .val q => roundF32 q
  | z => z

/-- Bit-accurate f32 division: the exact quotient, correctly rounded to binary32
(special values as in `F32.div`). -/
def F32.fdiv (x y : F32) : F32 :=
  match F32.div x y with
  | .val q => roundF32 q
  | z => z

/-- Bit-accurate `u64 as f32`: round to nearest, ties to even. -/
def F32.ofNat64 (n : ℕ) : F32 := roundF32 (n : ℚ)

/-- Bit-accurate model of the percentage expression of `statscheck` (main.rs:128):
every f32 operation is the exact result correctly rounded to binary32; `.round()`
and the `as i8` cast are exact on representable inputs and modelled as before. -/
def used_memory_percentage_f32 (used total : ℕ) : ℤ :=
  rustAsI8 (F32.round (F32.fmul (F32.fdiv (F32.ofNat64 used) (F32.ofNat64 total))
    (F32.ofNat64 100)))

/-- `struct GpuStats` of main.rs; float fields are idealized rationals, the
`i8` percentage is an integer (always in the i8 range by construction). -/
structure GpuStats where
  name : String
  used_memory : ℚ
  total_memory : ℚ
  used_memory_percentage : ℤ
  temperature : ℕ
  core_clock : ℕ
  memory_clock : ℕ
  fan_speed : ℕ
  power_usage : ℚ
deriving DecidableEq

/-- `struct CpuStats` of main.rs. -/
structure CpuStats where
  total_usage : ℤ
  temperature : Option ℚ
  fan_speed : Option ℕ
deriving DecidableEq

/-- `struct FpsCounter` of main.rs; `last_fps_update` is a millisecond timestamp. -/
structure FpsCounter where
  frames : ℕ
  last_fps_update : ℕ
  current_fps : ℕ
deriving DecidableEq

/-- `FpsCounter::new`, at current time `now`. -/
def FpsCounter.new (now : ℕ) : FpsCounter :=
  { frames := 0, last_fps_update := now, current_fps := 0 }

/-- `FpsCounter::update`, invoked at current time `now` (milliseconds):
increment `frames`; if at least one second has elapsed since `last_fps_update`,
publish `frames` as `current_fps`, reset the tally and restart the window at `now`. -/
def FpsCounter.update (c : FpsCounter) (now : ℕ) : FpsCounter :=
  let frames := c.frames + 1
  if 1000 ≤ now - c.last_fps_update then
    { frames := 0, last_fps_update := now, current_fps := frames }
  else
    { c with frames := frames }

/-- `TemperatureSensor` of nvml_wrapper (only `Gpu` is used). -/
inductive TemperatureSensor where
  | Gpu : TemperatureSensor
deriving DecidableEq

/-- `Clock` of nvml_wrapper (only `Graphics` and `Memory` are used). -/
inductive Clock where
  | Graphics : Clock
  | Memory : Clock
deriving DecidableEq

/-- `MemoryInfo` returned by `device.memory_info()`: used and total bytes (u64). -/
structure MemoryInfo where
  used : ℕ
  total : ℕ
deriving DecidableEq

/-- An NVML device handle: each fallible getter is the value the hardware would
return for this run. -/
structure Device where
  name : Except NvmlError String
  memory_info : Except NvmlError MemoryInfo
  temperature : TemperatureSensor → Except NvmlError ℕ
  clock_info : Clock → Except NvmlError ℕ
  fan_speed : ℕ → Except NvmlError ℕ
  power_usage : Except NvmlError ℕ

/-- The NVML handle: `device_by_index` is the only operation the program uses. -/
structure Nvml where
  device_by_index : ℕ → Except NvmlError Device

/-- The sysinfo `System` provider. `refresh_all` updates internal caches; the model
carries the aggregate usage that `global_cpu_usage()` reports after the refresh,
so `refresh_all` is the identity and the field is that post-refresh reading. -/
structure System where
  global_cpu_usage : ℚ

/-- `System::refresh_all` (its effect is folded into `global_cpu_usage`). -/
def System.refresh_all (s : System) : System := s

/-- `fn statscheck(system, nvml) -> Result<(GpuStats, CpuStats), NvmlError>`:
each `?` is an early return of the error; the GPU struct fields are computed in
source order (device, memory_info, name, temperature, clocks, fan, power), then
the system is refreshed and the CPU stats are built (infallibly). -/
def statscheck (system : System) (nvml : Nvml) : Except NvmlError (GpuStats × CpuStats) :=
  match nvml.device_by_index 0 with
  | .error e => .error e
  | .ok device =>
  match device.memory_info with
  | .error e => .error e
  | .ok memory_info =>
  match device.name with
  | .error e => .error e
  | .ok nm =>
  match device.temperature TemperatureSensor.Gpu with
  | .error e => .error e
  | .ok temp =>
  match device.clock_info Clock.Graphics with
  | .error e => .error e
  | .ok core =>
  match device.clock_info Clock.Memory with
  | .error e => .error e
  | .ok mem =>
  match device.fan_speed 0 with
  | .error e => .error e
  | .ok fan =>
  match device.power_usage with
  | .error e => .error e
  | .ok power =>
  let gpu_stats : GpuStats :=
    { name := nm
      used_memory := bytes_to_gigabytes memory_info.used
      total_memory := bytes_to_gigabytes memory_info.total
      used_memory_percentage := used_memory_percentage memory_info.used memory_info.total
      temperature := temp
      core_clock := core
      memory_clock := mem
      fan_speed := fan
      power_usage := (power : ℚ) / 1000 }
  let system2 := system.refresh_all
  let cpu_stats : CpuStats :=
    { total_usage := rustAsI8 (.val system2.global_cpu_usage)
      temperature := some 0
      fan_speed := none }
  .ok (gpu_stats, cpu_stats)

/-- `struct StatsApp` of main.rs. The hotkey is represented by its id (the token
compared against drained events); timestamps are milliseconds. -/
structure StatsApp where
  gpu_stats : GpuStats
  cpu_stats : CpuStats
  system : System
  nvml : Nvml
  last_refresh : ℕ
  fps_counter : FpsCounter
  visible : Bool
  custom_hotkey : ℕ

/-- `StatsApp::new` at current time `now`: zeroed snapshots, fresh FPS counter,
`visible = true`. -/
def StatsApp.new (nvml : Nvml) (system : System) (hotkey_id : ℕ) (now : ℕ) : StatsApp :=
  { gpu_stats :=
      { name := ""
        used_memory := 0
        total_memory := 0
        used_memory_percentage := 0
        temperature := 0
        core_clock := 0
        memory_clock := 0
        fan_speed := 0
        power_usage := 0 }
    cpu_stats := { total_usage := 0, temperature := none, fan_speed := none }
    system := system
    nvml := nvml
    last_refresh := now
    fps_counter := FpsCounter.new now
    visible := true
    custom_hotkey := hotkey_id }

/-- `StatsApp::refresh_stats`: calls `statscheck` and `.unwrap()`s the result;
an error therefore panics (`none`); on success both snapshots are overwritten. -/
def StatsApp.refresh_stats (a : StatsApp) : Option StatsApp :=
  match statscheck a.system a.nvml with
  | .error _ => none
  | .ok (g, c) => some { a with gpu_stats := g, cpu_stats := c }

/-- The hotkey drain loop of `StatsApp::update`: for each drained event id, flip
`visible` when it equals the registered hotkey id, else leave it unchanged. -/
def applyEvents (hotkey_id : ℕ) (events : List ℕ) (visible : Bool) : Bool :=
  events.foldl (fun v e => if e = hotkey_id then !v else v) visible

/-- Observable effects of one `StatsApp::update` invocation. -/
structure UpdateOutput where
  frame_recorded : Bool
  collect_invoked : Bool
  panel_drawn : Bool
  repaint_after : ℕ
deriving DecidableEq

/-- One invocation of `StatsApp::update` (eframe's per-frame callback) at time
`now` with pending hotkey event ids `events`, mirroring the source order:
1. if `visible`, `fps_counter.update()`;
2. drain events, flipping `visible` on each matching id;
3. if not visible: request repaint after 1 s and return (no draw, no collection);
4. draw the panel (read-only);
5. if ≥ 1 s since `last_refresh`: `refresh_stats()` (panic — `none` — on
   collection failure), then set `last_refresh` to now;
6. `visible` is still true here, so request repaint after 16 ms. -/
def StatsApp.update (a : StatsApp) (now : ℕ) (events : List ℕ) :
    Option (StatsApp × UpdateOutput) :=
  let frame_recorded := a.visible
  let fps' := if a.visible then a.fps_counter.update now else a.fps_counter
  let visible' := applyEvents a.custom_hotkey events a.visible
  let a1 := { a with fps_counter := fps', visible := visible' }
  if visible' = false then
    some (a1, { frame_recorded := frame_recorded
                collect_invoked := false
                panel_drawn := false
                repaint_after := 1000 })
  else
    if 1000 ≤ now - a1.last_refresh then
      match a1.refresh_stats with
      | none => none
      | some a2 =>
        some ({ a2 with last_refresh := now },
              { frame_recorded := frame_recorded
                collect_invoked := true
                panel_drawn := true
                repaint_after := 16 })
    else
      some (a1, { frame_recorded := frame_recorded
                  collect_invoked := false
                  panel_drawn := true
                  repaint_after := 16 })

/-- Iterating `StatsApp.update` over a list of `(now, events)` inputs, collecting
the per-invocation outputs; a panic in any step aborts the run. -/
def StatsApp.run (a : StatsApp) (inputs : List (ℕ × List ℕ)) :
    Option (StatsApp × List UpdateOutput) :=
  match inputs with
  | [] => some (a, [])
  | (now, events) :: rest =>
    match a.update now events with
    | none => none
    | some (a', out) =>
      match a'.run rest with
      | none => none
      | some (a'', outs) => some (a'', out :: outs)

/-- Outcome of `fn main()` as far as control flow is observable. -/
structure MainOutcome where
  logged_init_failure : Bool
  window_created : Bool
  entered_render_loop : Bool
  exited_ok : Bool
deriving DecidableEq

/-- `fn main()`: `Nvml::init()` failing prints the error and returns `Ok(())`
(clean exit, no window, no render loop); success builds the window options and
enters `eframe::run_native` with `StatsApp::new` (whose normal return is also
`Ok`-propagated). -/
def main_flow (initResult : Except NvmlError Nvml) : MainOutcome :=
  match initResult with
  | .error _ =>
    { logged_init_failure := true
      window_created := false
      entered_render_loop := false
      exited_ok := true }
  | .ok _ =>
    { logged_init_failure := false
      window_created := true
      entered_render_loop := true
      exited_ok := true }

/-- A healthy device for concrete runs: every query succeeds. -/
def sampleDevice : Device :=
  { name := .ok "GeForce"
    memory_info := .ok { used := 2048000000, total := 8192000000 }
    temperature := fun _ => .ok 50
    clock_info := fun _ => .ok 1500
    fan_speed := fun _ => .ok 30
    power_usage := .ok 100000 }

/-- An NVML handle exposing `sampleDevice` at index 0. -/
def sampleNvml : Nvml :=
  { device_by_index := fun i => if i = 0 then .ok sampleDevice else .error .notFound }

/-- An NVML handle on which every device lookup fails. -/
def failNvml : Nvml := { device_by_index := fun _ => .error .unknown }

/-- A system provider reporting 20% aggregate CPU usage. -/
def sampleSystem : System := { global_cpu_usage := 20 }

/-- A freshly constructed app (hotkey id 7, created at time 0). -/
def baseApp : StatsApp := StatsApp.new sampleNvml sampleSystem 7 0

/-- `baseApp` after the overlay has been hidden. -/
def hiddenApp : StatsApp := { baseApp with visible := false }

/-- `baseApp` attached to a provider whose collection always fails. -/
def failApp : StatsApp := { baseApp with nvml := failNvml }

example : used_memory_percentage 2048000000 8192000000 = 25 := by
  norm_num [used_memory_percentage, rustAsI8, F32.round, F32.mul, F32.div, F32.ofNat,
    roundHalfAway, ratTrunc]
example : used_memory_percentage 0 0 = 0 := by
  norm_num [used_memory_percentage, rustAsI8, F32.round, F32.mul, F32.div, F32.ofNat,
    roundHalfAway, ratTrunc]
example : used_memory_percentage 5 0 = 127 := by
  norm_num [used_memory_percentage, rustAsI8, F32.round, F32.mul, F32.div, F32.ofNat,
    roundHalfAway, ratTrunc]
example : bytes_to_gigabytes 1024000000 = 1 := by norm_num [bytes_to_gigabytes]

/-- Draining a list of events flips visibility once per matching event: the result
depends only on the parity of the number of matching ids. -/
lemma applyEvents_count (hotkey_id : ℕ) (events : List ℕ) (v : Bool) :
    applyEvents hotkey_id events v =
      if events.count hotkey_id % 2 = 0 then v else !v := by
  induction events generalizing v with
  | nil => simp [applyEvents]
  | cons e t ih =>
    by_cases he : e = hotkey_id
    · subst he
      have h1 : applyEvents e (e :: t) v = applyEvents e t (!v) := by
        simp [applyEvents]
      rw [h1, ih]
      have h2 : (e :: t).count e = t.count e + 1 := by simp [List.count_cons]
      rw [h2]
      rcases Nat.mod_two_eq_zero_or_one (t.count e) with h | h <;>
        simp [h, Nat.add_mod, Nat.mod_self]
    · have h1 : applyEvents hotkey_id (e :: t) v = applyEvents hotkey_id t v := by
        simp [applyEvents, he]
      rw [h1, ih]
      simp [List.count_cons, he]

/-- A sequence of `FpsCounter.update` calls all strictly inside the current window
only accumulates the tally: rate and window start are untouched. -/
lemma fps_fold_no_report (t0 : ℕ) (c : FpsCounter) (ts : List ℕ)
    (hlast : c.last_fps_update = t0) (hall : ∀ t ∈ ts, t - t0 < 1000) :
    ts.foldl FpsCounter.update c =
      { frames := c.frames + ts.length, last_fps_update := t0,
        current_fps := c.current_fps } := by
  induction ts generalizing c with
  | nil =>
    cases c
    simp_all
  | cons t ts ih =>
    have hlt : ¬ 1000 ≤ t - c.last_fps_update := by
      rw [hlast]
      exact not_le.mpr (hall t (by simp))
    have hstep : c.update t = { c with frames := c.frames + 1 } := by
      simp [FpsCounter.update, hlt]
    rw [List.foldl_cons, hstep,
      ih { c with frames := c.frames + 1 } hlast (fun x hx => hall x (by simp [hx]))]
    simp only [List.length_cons]
    congr 1
    omega

/-- C4: the visibility state machine starts in `Visible`; a drained event matching
the registered hotkey id inverts visibility exactly once, a non-matching event
leaves it unchanged, and after draining any event list visibility equals the
initial state exactly when the number of matching events is even. -/
theorem c4_visibility_toggle :
    (∀ nvml system hotkey_id now,
      (StatsApp.new nvml system hotkey_id now).visible = true) ∧
    (∀ (hotkey_id : ℕ) (v : Bool) (e : ℕ), e ≠ hotkey_id →
      applyEvents hotkey_id [e] v = v) ∧
    (∀ (hotkey_id : ℕ) (v : Bool), applyEvents hotkey_id [hotkey_id] v = !v) ∧
    (∀ (hotkey_id : ℕ) (events : List ℕ) (v : Bool),
      applyEvents hotkey_id events v = v ↔ events.count hotkey_id % 2 = 0) := by
  refine ⟨fun _ _ _ _ => rfl, ?_, ?_, ?_⟩
  · intro hotkey_id v e he
    simp [applyEvents, he]
  · intro hotkey_id v
    simp [applyEvents]
  · intro hotkey_id events v
    rw [applyEvents_count]
    by_cases h : events.count hotkey_id % 2 = 0 <;> cases v <;> simp [h]

/-- Witness for C4 at a concrete non-matching event. -/
theorem c4_witness : (3 : ℕ) ≠ 5 ∧ applyEvents 5 [3] true = true :=
  ⟨by decide, c4_visibility_toggle.2.1 5 true 3 (by decide)⟩

/-- C9: if NVML initialization fails at startup, `main` logs the condition and
exits cleanly (returns `Ok(())`) without creating a window or entering the
render loop. -/
theorem c9_fatal_init_clean_exit :
    ∀ e : NvmlError,
      main_flow (Except.error e) =
        { logged_init_failure := true, window_created := false,
          entered_render_loop := false, exited_ok := true } :=
  fun _ => rfl

/-- C2 counterexample: from a fresh window at time 0, thirty `record_frame` calls
strictly inside the window followed by one at the 1-second boundary publish an
FPS of 31 — the boundary-crossing call itself is counted — not 30 as claimed. -/
theorem c2_counterexample :
    ((List.replicate 30 0).foldl FpsCounter.update (FpsCounter.new 0)).update 1000 =
      { frames := 0, last_fps_update := 1000, current_fps := 31 } ∧
    (((List.replicate 30 0).foldl FpsCounter.update
      (FpsCounter.new 0)).update 1000).current_fps ≠ 30 := by
  constructor <;> decide

/-- C2 (amended): from a fresh window started at `t0`, after 30 `record_frame`
calls all strictly less than 1 s after `t0`, a further call at `t` with
`t - t0 ≥ 1 s` publishes `current_fps = 31` (the boundary-crossing call is
itself counted before the window check), resets the tally to 0 and restarts the
window at `t`. -/
theorem c2_fps_boundary_reports_31 (t0 t : ℕ) (ts : List ℕ)
    (hlen : ts.length = 30) (hall : ∀ x ∈ ts, x - t0 < 1000)
    (hge : 1000 ≤ t - t0) :
    (ts.foldl FpsCounter.update (FpsCounter.new t0)).update t =
      { frames := 0, last_fps_update := t, current_fps := 31 } := by
  rw [fps_fold_no_report t0 (FpsCounter.new t0) ts rfl hall]
  simp [FpsCounter.update, FpsCounter.new, hge, hlen]

/-- Witness for C2 (amended) at thirty calls at time 0 and one at time 1000. -/
theorem c2_witness :
    (List.replicate 30 (0 : ℕ)).length = 30 ∧
    (∀ x ∈ List.replicate 30 (0 : ℕ), x - 0 < 1000) ∧
    1000 ≤ 1000 - 0 ∧
    ((List.replicate 30 (0 : ℕ)).foldl FpsCounter.update (FpsCounter.new 0)).update 1000 =
      { frames := 0, last_fps_update := 1000, current_fps := 31 } :=
  ⟨by decide, by decide, by decide,
    c2_fps_boundary_reports_31 0 1000 (List.replicate 30 0) (by decide) (by decide)
      (by decide)⟩

/-- Truncation of an integer-valued rational is that integer. -/
lemma ratTrunc_intCast (r : ℤ) : ratTrunc (r : ℚ) = r := by
  unfold ratTrunc
  rcases le_or_lt 0 (r : ℚ) with h | h
  · rw [if_pos h, Int.floor_intCast]
  · rw [if_neg (not_le.mpr h)]
    rw [show -(r : ℚ) = ((-r : ℤ) : ℚ) by push_cast; ring, Int.floor_intCast]
    omega

/-- Rounding half away from zero is nonnegative on nonnegative inputs. -/
lemma roundHalfAway_nonneg (q : ℚ) (h : 0 ≤ q) : 0 ≤ roundHalfAway q := by
  unfold roundHalfAway
  rw [if_pos h]
  exact Int.le_floor.mpr (by push_cast; linarith)

/-- Rounding half away from zero respects an integer upper bound. -/
lemma roundHalfAway_le_of_le (q : ℚ) (z : ℤ) (h0 : 0 ≤ q) (h : q ≤ (z : ℚ)) :
    roundHalfAway q ≤ z := by
  unfold roundHalfAway
  rw [if_pos h0]
  have hlt : ⌊q + 1/2⌋ < z + 1 := Int.floor_lt.mpr (by push_cast; linarith)
  omega

/-- With a positive total, the percentage expression is the clamped
half-away-from-zero rounding of the exact ratio times 100. -/
lemma ump_eq_clamped (used total : ℕ) (hpos : 0 < total) :
    used_memory_percentage used total =
      max (-128) (min 127 (roundHalfAway ((used : ℚ) / (total : ℚ) * 100))) := by
  have htQ : ((total : ℕ) : ℚ) ≠ 0 := by
    exact_mod_cast Nat.pos_iff_ne_zero.mp hpos
  unfold used_memory_percentage F32.ofNat
  rw [show F32.div (.val ((used : ℕ) : ℚ)) (.val ((total : ℕ) : ℚ)) =
      .val ((used : ℚ) / (total : ℚ)) by simp [F32.div, htQ]]
  rw [show F32.mul (.val ((used : ℚ) / (total : ℚ))) (.val ((100 : ℕ) : ℚ)) =
      .val ((used : ℚ) / (total : ℚ) * 100) by simp [F32.mul]]
  rw [show F32.round (.val ((used : ℚ) / (total : ℚ) * 100)) =
      .val ((roundHalfAway ((used : ℚ) / (total : ℚ) * 100) : ℤ) : ℚ) from rfl]
  simp [rustAsI8, ratTrunc_intCast]

/-- With total 0 the division yields NaN (used 0) or positive infinity, which the
`as i8` cast maps to the defined values 0 and 127 respectively. -/
lemma ump_total_zero (used : ℕ) :
    used_memory_percentage used 0 = if used = 0 then 0 else 127 := by
  by_cases h : used = 0
  · subst h
    simp [used_memory_percentage, F32.ofNat, F32.div, F32.mul, F32.round, rustAsI8]
  · have hne : ((used : ℕ) : ℚ) ≠ 0 := by exact_mod_cast h
    have hpos : (0 : ℚ) < ((used : ℕ) : ℚ) := by
      exact_mod_cast Nat.pos_of_ne_zero h
    simp [used_memory_percentage, F32.ofNat, F32.div, F32.mul, F32.round, rustAsI8,
      hne, hpos, h]

/-- Rounding to nearest even of an integer is that integer. -/
lemma roundHalfEven_intCast (n : ℤ) : roundHalfEven (n : ℚ) = n := by
  unfold roundHalfEven
  rw [Int.floor_intCast]
  norm_num

/-- Rounding to nearest even never goes below the floor. -/
lemma floor_le_roundHalfEven (q : ℚ) : ⌊q⌋ ≤ roundHalfEven q := by
  unfold roundHalfEven
  split_ifs <;> omega

/-- Rounding to nearest even never exceeds the floor plus one. -/
lemma roundHalfEven_le_floor_add_one (q : ℚ) : roundHalfEven q ≤ ⌊q⌋ + 1 := by
  unfold roundHalfEven
  split_ifs <;> omega

/-- Rounding to nearest even respects an integer upper bound. -/
lemma roundHalfEven_le_of_le_int (q : ℚ) (k : ℤ) (h : q ≤ (k : ℚ)) :
    roundHalfEven q ≤ k := by
  have hf : ⌊q⌋ ≤ k := by
    have h2 := Int.floor_le_floor h
    rwa [Int.floor_intCast] at h2
  rcases lt_or_eq_of_le hf with hlt | heq
  · have := roundHalfEven_le_floor_add_one q
    omega
  · have hk : (k : ℚ) ≤ q := by
      rw [← heq]
      exact Int.floor_le q
    rw [le_antisymm h hk, roundHalfEven_intCast]

/-- Rounding to nearest even respects an integer lower bound. -/
lemma le_roundHalfEven_of_int_le (k : ℤ) (q : ℚ) (h : (k : ℚ) ≤ q) :
    k ≤ roundHalfEven q := by
  have h1 : k ≤ ⌊q⌋ := Int.le_floor.mpr h
  have h2 := floor_le_roundHalfEven q
  omega

/-- Rounding to nearest even is monotone. -/
lemma roundHalfEven_mono {q1 q2 : ℚ} (h : q1 ≤ q2) :
    roundHalfEven q1 ≤ roundHalfEven q2 := by
  have hff : ⌊q1⌋ ≤ ⌊q2⌋ := Int.floor_le_floor h
  rcases lt_or_eq_of_le hff with hlt | heq
  · have h1 := roundHalfEven_le_floor_add_one q1
    have h2 := floor_le_roundHalfEven q2
    omega
  · unfold roundHalfEven
    rw [heq]
    have hfr : q1 - (⌊q2⌋ : ℚ) ≤ q2 - (⌊q2⌋ : ℚ) := by linarith
    split_ifs <;> first | omega | linarith

/-- Rounding to nearest even overshoots by at most one half. -/
lemma roundHalfEven_le_add_half (q : ℚ) : (roundHalfEven q : ℚ) ≤ q + 1/2 := by
  have hfl := Int.floor_le q
  unfold roundHalfEven
  split_ifs <;> push_cast <;> linarith

/-- Evaluation rule for `roundF32pos`: locating the input between consecutive
powers of two fixes the exponent, and the result is the rounded scaled mantissa. -/
lemma roundF32pos_eval (q v : ℚ) (k e m : ℤ) (hq : 0 < q)
    (hlow : (2:ℚ)^k ≤ q) (hhigh : q < (2:ℚ)^(k+1))
    (he : max (-149) (k - 23) = e)
    (hm : roundHalfEven (q * (2:ℚ)^(-e)) = m)
    (hmax : ¬ f32Max < (m : ℚ) * (2:ℚ)^e)
    (hv : (m : ℚ) * (2:ℚ)^e = v) :
    roundF32pos q = .val v := by
  have hlog : Int.log 2 q = k := by
    have h1 : k ≤ Int.log 2 q :=
      (Int.zpow_le_iff_le_log (by norm_num) hq).mp (by exact_mod_cast hlow)
    have h2 : Int.log 2 q < k + 1 :=
      (Int.lt_zpow_iff_log_lt (by norm_num) hq).mp (by exact_mod_cast hhigh)
    omega
  simp only [roundF32pos]
  rw [hlog, he, hm, if_neg hmax, hv]

/-- A value produced by `roundF32pos` is the rounded scaled mantissa times the
chosen power of two. -/
lemma roundF32pos_val_elim (q v : ℚ) (hv : roundF32pos q = .val v) :
    v = (roundHalfEven (q * (2:ℚ)^(-(max (-149) (Int.log 2 q - 23)))) : ℚ) *
      (2:ℚ)^(max (-149) (Int.log 2 q - 23)) := by
  simp only [roundF32pos] at hv
  split_ifs at hv with h
  · injection hv with h2
    exact h2.symm

/-- On positive inputs up to 2^64, `roundF32pos` produces a finite nonnegative
value exceeding the input by at most 2^40. -/
lemma roundF32pos_val_spec (q : ℚ) (hq : 0 < q) (hb : q ≤ (2:ℚ)^(64:ℕ)) :
    ∃ v, roundF32pos q = .val v ∧ 0 ≤ v ∧ v ≤ q + (2:ℚ)^(40:ℕ) := by
  set l := Int.log 2 q with hl
  set e := max (-149) (l - 23) with he
  set x := q * (2:ℚ)^(-e) with hx
  set m := roundHalfEven x with hm
  have hxpos : 0 ≤ x := by rw [hx]; positivity
  have hm0 : 0 ≤ m := le_roundHalfEven_of_int_le 0 x (by exact_mod_cast hxpos)
  have hzpos : (0:ℚ) < (2:ℚ)^e := by positivity
  have hmx : (m : ℚ) ≤ x + 1/2 := roundHalfEven_le_add_half x
  have hxe : x * (2:ℚ)^e = q := by
    rw [hx, mul_assoc, ← zpow_add₀ (by norm_num : (2:ℚ) ≠ 0)]
    simp
  have hval : (m : ℚ) * (2:ℚ)^e ≤ q + (2:ℚ)^(e-1) := by
    have h1 : (m : ℚ) * (2:ℚ)^e ≤ (x + 1/2) * (2:ℚ)^e :=
      mul_le_mul_of_nonneg_right hmx (le_of_lt hzpos)
    have h2 : (x + 1/2) * (2:ℚ)^e = q + (2:ℚ)^e / 2 := by
      rw [add_mul, hxe]
      ring
    have h3 : (2:ℚ)^(e-1) = (2:ℚ)^e / 2 := by
      rw [zpow_sub₀ (by norm_num : (2:ℚ) ≠ 0), zpow_one]
    rw [h3]
    linarith
  have hle : l ≤ 64 := by
    have h1 : Int.log 2 q ≤ Int.log 2 ((2:ℚ)^(64:ℕ)) := Int.log_mono_right hq hb
    have h2 : Int.log 2 ((2:ℚ)^(64:ℕ)) = 64 := by
      have h3 := Int.log_zpow (R := ℚ) (b := 2) (by norm_num) 64
      rw [show ((2:ℕ):ℚ)^(64:ℤ) = (2:ℚ)^(64:ℕ) by norm_num] at h3
      exact h3
    omega
  have hee : e ≤ 41 := by
    rw [he]
    rcases max_choice (-149) (l - 23) with h | h <;> omega
  have h2e : (2:ℚ)^(e-1) ≤ (2:ℚ)^(40:ℤ) :=
    zpow_le_zpow_right₀ (by norm_num) (by omega)
  have h40 : (2:ℚ)^(40:ℤ) = (2:ℚ)^(40:ℕ) := by norm_num
  have hover : ¬ f32Max < (m : ℚ) * (2:ℚ)^e := by
    push_neg
    have h1 : (m : ℚ) * (2:ℚ)^e ≤ q + (2:ℚ)^(40:ℕ) := by
      rw [← h40]
      linarith
    have h2 : (2:ℚ)^(64:ℕ) + (2:ℚ)^(40:ℕ) ≤ f32Max := by norm_num [f32Max]
    linarith
  refine ⟨(m : ℚ) * (2:ℚ)^e, ?_, ?_, ?_⟩
  · simp only [roundF32pos, ← hl, ← he, ← hx, ← hm]
    rw [if_neg hover]
  · exact mul_nonneg (by exact_mod_cast hm0) (le_of_lt hzpos)
  · rw [← h40]
    linarith

/-- Binary32 rounding of positive rationals is monotone on finite results. -/
lemma roundF32pos_mono (q1 q2 v1 v2 : ℚ) (h1 : 0 < q1) (h12 : q1 ≤ q2)
    (hv1 : roundF32pos q1 = .val v1) (hv2 : roundF32pos q2 = .val v2) :
    v1 ≤ v2 := by
  have h2 : 0 < q2 := lt_of_lt_of_le h1 h12
  obtain ⟨e1, he1⟩ : ∃ e, max (-149) (Int.log 2 q1 - 23) = e := ⟨_, rfl⟩
  obtain ⟨e2, he2⟩ : ∃ e, max (-149) (Int.log 2 q2 - 23) = e := ⟨_, rfl⟩
  obtain ⟨m1, hm1⟩ : ∃ m, roundHalfEven (q1 * (2:ℚ)^(-e1)) = m := ⟨_, rfl⟩
  obtain ⟨m2, hm2⟩ : ∃ m, roundHalfEven (q2 * (2:ℚ)^(-e2)) = m := ⟨_, rfl⟩
  have hv1' : v1 = (m1 : ℚ) * (2:ℚ)^e1 := by
    rw [roundF32pos_val_elim q1 v1 hv1, he1, hm1]
  have hv2' : v2 = (m2 : ℚ) * (2:ℚ)^e2 := by
    rw [roundF32pos_val_elim q2 v2 hv2, he2, hm2]
  have hlog12 : Int.log 2 q1 ≤ Int.log 2 q2 := Int.log_mono_right h1 h12
  have hle12 : e1 ≤ e2 := by
    rw [← he1, ← he2]
    exact max_le_max (le_refl _) (by omega)
  have hE1low : (-149 : ℤ) ≤ e1 := by
    rw [← he1]
    exact le_max_left _ _
  rcases eq_or_lt_of_le hle12 with heq | hlt
  · subst heq
    have hx12 : q1 * (2:ℚ)^(-e1) ≤ q2 * (2:ℚ)^(-e1) :=
      mul_le_mul_of_nonneg_right h12 (by positivity)
    have hm12 : m1 ≤ m2 := by
      rw [← hm1, ← hm2]
      exact roundHalfEven_mono hx12
    rw [hv1', hv2']
    exact mul_le_mul_of_nonneg_right (by exact_mod_cast hm12) (by positivity)
  · have he2' : e2 = Int.log 2 q2 - 23 := by
      rw [← he2]
      rcases max_choice (-149) (Int.log 2 q2 - 23) with h | h <;> omega
    have hq2low : (2:ℚ)^(Int.log 2 q2) ≤ q2 := by
      exact_mod_cast Int.zpow_log_le_self (b := 2) (by norm_num) h2
    have hx2 : (2:ℚ)^(23:ℤ) ≤ q2 * (2:ℚ)^(-e2) := by
      have hstep : (2:ℚ)^(23:ℤ) = (2:ℚ)^(Int.log 2 q2) * (2:ℚ)^(-e2) := by
        rw [← zpow_add₀ (by norm_num : (2:ℚ) ≠ 0)]
        congr 1
        omega
      rw [hstep]
      exact mul_le_mul_of_nonneg_right hq2low (by positivity)
    have hcast23 : ((2^23 : ℤ) : ℚ) = (2:ℚ)^(23:ℤ) := by norm_num
    have hm2low : (2^23 : ℤ) ≤ m2 := by
      rw [← hm2]
      exact le_roundHalfEven_of_int_le _ _ (by rw [hcast23]; exact hx2)
    have hv2low : (2:ℚ)^(e2 + 23) ≤ v2 := by
      rw [hv2']
      have hstep : (2:ℚ)^(e2 + 23) = (2:ℚ)^(23:ℤ) * (2:ℚ)^e2 := by
        rw [← zpow_add₀ (by norm_num : (2:ℚ) ≠ 0)]
        congr 1
        omega
      rw [hstep]
      exact mul_le_mul_of_nonneg_right (by rw [← hcast23]; exact_mod_cast hm2low)
        (by positivity)
    have hq1high : q1 < (2:ℚ)^(Int.log 2 q1 + 1) := by
      exact_mod_cast Int.lt_zpow_succ_log_self (b := 2) (by norm_num) q1
    have he1ge : Int.log 2 q1 - 23 ≤ e1 := by
      rw [← he1]
      exact le_max_right _ _
    have hx1 : q1 * (2:ℚ)^(-e1) ≤ (2:ℚ)^(24:ℤ) := by
      have hs1 : q1 * (2:ℚ)^(-e1) < (2:ℚ)^(Int.log 2 q1 + 1) * (2:ℚ)^(-e1) :=
        mul_lt_mul_of_pos_right hq1high (by positivity)
      have hs2 : (2:ℚ)^(Int.log 2 q1 + 1) * (2:ℚ)^(-e1) ≤ (2:ℚ)^(24:ℤ) := by
        rw [← zpow_add₀ (by norm_num : (2:ℚ) ≠ 0)]
        exact zpow_le_zpow_right₀ (by norm_num) (by omega)
      linarith
    have hcast24 : ((2^24 : ℤ) : ℚ) = (2:ℚ)^(24:ℤ) := by norm_num
    have hm1high : m1 ≤ 2^24 := by
      rw [← hm1]
      exact roundHalfEven_le_of_le_int _ _ (by rw [hcast24]; exact hx1)
    have hv1high : v1 ≤ (2:ℚ)^(e1 + 24) := by
      rw [hv1']
      have hs1 : (m1 : ℚ) * (2:ℚ)^e1 ≤ (2:ℚ)^(24:ℤ) * (2:ℚ)^e1 :=
        mul_le_mul_of_nonneg_right (by rw [← hcast24]; exact_mod_cast hm1high)
          (by positivity)
      have hs2 : (2:ℚ)^(24:ℤ) * (2:ℚ)^e1 = (2:ℚ)^(e1 + 24) := by
        rw [← zpow_add₀ (by norm_num : (2:ℚ) ≠ 0)]
        congr 1
        omega
      linarith [hs2 ▸ hs1]
    have hmid : (2:ℚ)^(e1 + 24) ≤ (2:ℚ)^(e2 + 23) :=
      zpow_le_zpow_right₀ (by norm_num) (by omega)
    linarith

/-- Binary32 rounding maps zero to zero. -/
lemma roundF32_zero : roundF32 0 = .val 0 := by
  simp [roundF32]

/-- On nonnegative inputs up to 2^64, binary32 rounding produces a finite
nonnegative value. -/
lemma roundF32_val_spec (q : ℚ) (h0 : 0 ≤ q) (hb : q ≤ (2:ℚ)^(64:ℕ)) :
    ∃ v, roundF32 q = .val v ∧ 0 ≤ v := by
  rcases eq_or_lt_of_le h0 with heq | hpos
  · exact ⟨0, by rw [← heq]; exact roundF32_zero, le_refl 0⟩
  · obtain ⟨v, hv, hv0, _⟩ := roundF32pos_val_spec q hpos hb
    refine ⟨v, ?_, hv0⟩
    simp only [roundF32]
    rw [if_pos hpos]
    exact hv

/-- Binary32 rounding is monotone on nonnegative inputs with finite results. -/
lemma roundF32_mono (q1 q2 v1 v2 : ℚ) (h0 : 0 ≤ q1) (h12 : q1 ≤ q2)
    (hv1 : roundF32 q1 = .val v1) (hv2 : roundF32 q2 = .val v2) : v1 ≤ v2 := by
  rcases eq_or_lt_of_le h0 with heq | hpos
  · have hv1' : v1 = 0 := by
      rw [← heq, roundF32_zero] at hv1
      injection hv1 with h2
      exact h2.symm
    rcases eq_or_lt_of_le (h0.trans h12) with heq2 | hpos2
    · have hv2' : v2 = 0 := by
        rw [← heq2, roundF32_zero] at hv2
        injection hv2 with h2
        exact h2.symm
      rw [hv1', hv2']
    · have hpos' : roundF32 q2 = roundF32pos q2 := by
        simp only [roundF32]
        rw [if_pos hpos2]
      rw [hpos'] at hv2
      have hv2e := roundF32pos_val_elim q2 v2 hv2
      have hnn : (0 : ℤ) ≤
          roundHalfEven (q2 * (2:ℚ)^(-(max (-149) (Int.log 2 q2 - 23)))) := by
        apply le_roundHalfEven_of_int_le
        push_cast
        positivity
      rw [hv1', hv2e]
      exact mul_nonneg (by exact_mod_cast hnn) (by positivity)
  · have hpos2 : 0 < q2 := lt_of_lt_of_le hpos h12
    have h1' : roundF32 q1 = roundF32pos q1 := by
      simp only [roundF32]
      rw [if_pos hpos]
    have h2' : roundF32 q2 = roundF32pos q2 := by
      simp only [roundF32]
      rw [if_pos hpos2]
    rw [h1'] at hv1
    rw [h2'] at hv2
    exact roundF32pos_mono q1 q2 v1 v2 hpos h12 hv1 hv2

/-- Binary32 rounding of 1 is exact. -/
lemma roundF32_one : roundF32 1 = .val 1 := by
  simp only [roundF32]
  rw [if_pos one_pos]
  apply roundF32pos_eval 1 1 0 (-23) 8388608 one_pos
  · norm_num
  · norm_num
  · decide
  · rw [show (1:ℚ) * (2:ℚ)^(-(-23:ℤ)) = ((8388608 : ℤ) : ℚ) by norm_num]
    exact roundHalfEven_intCast 8388608
  · norm_num [f32Max]
  · norm_num

/-- Binary32 rounding of 100 is exact. -/
lemma roundF32_hundred : roundF32 100 = .val 100 := by
  simp only [roundF32]
  rw [if_pos (by norm_num : (0:ℚ) < 100)]
  apply roundF32pos_eval 100 100 6 (-17) 13107200 (by norm_num)
  · norm_num
  · norm_num
  · decide
  · rw [show (100:ℚ) * (2:ℚ)^(-(-17:ℤ)) = ((13107200 : ℤ) : ℚ) by norm_num]
    exact roundHalfEven_intCast 13107200
  · norm_num [f32Max]
  · norm_num

/-- C6 counterexample: at used = 42949672, total = 8589934592 bytes (both u64
values whose f32 conversions and whose quotient are exact), the single f32
multiplication by 100 rounds 0.49999998882… up to exactly 0.5, so the program
stores a percentage of 1 while the exact round(used/total × 100) is 0 — the
claimed equality fails. -/
theorem c6_counterexample :
    used_memory_percentage_f32 42949672 8589934592 = 1 ∧
    roundHalfAway (((42949672 : ℕ) : ℚ) / ((8589934592 : ℕ) : ℚ) * 100) = 0 ∧
    (1 : ℤ) ≠ 0 := by
  refine ⟨?_, ?_, by decide⟩
  · have h1 : F32.ofNat64 42949672 = .val 42949672 := by
      show roundF32 ((42949672 : ℕ) : ℚ) = _
      rw [show ((42949672 : ℕ) : ℚ) = 42949672 by norm_num]
      simp only [roundF32]
      rw [if_pos (by norm_num : (0:ℚ) < 42949672)]
      apply roundF32pos_eval _ _ 25 2 10737418 (by norm_num)
      · norm_num
      · norm_num
      · decide
      · rw [show (42949672:ℚ) * (2:ℚ)^(-(2:ℤ)) = ((10737418 : ℤ) : ℚ) by norm_num]
        exact roundHalfEven_intCast 10737418
      · norm_num [f32Max]
      · norm_num
    have h2 : F32.ofNat64 8589934592 = .val 8589934592 := by
      show roundF32 ((8589934592 : ℕ) : ℚ) = _
      rw [show ((8589934592 : ℕ) : ℚ) = 8589934592 by norm_num]
      simp only [roundF32]
      rw [if_pos (by norm_num : (0:ℚ) < 8589934592)]
      apply roundF32pos_eval _ _ 33 10 8388608 (by norm_num)
      · norm_num
      · norm_num
      · decide
      · rw [show (8589934592:ℚ) * (2:ℚ)^(-(10:ℤ)) = ((8388608 : ℤ) : ℚ) by norm_num]
        exact roundHalfEven_intCast 8388608
      · norm_num [f32Max]
      · norm_num
    have h100 : F32.ofNat64 100 = .val 100 := by
      show roundF32 ((100 : ℕ) : ℚ) = _
      rw [show ((100 : ℕ) : ℚ) = 100 by norm_num]
      exact roundF32_hundred
    have hdiv : F32.fdiv (.val (42949672:ℚ)) (.val (8589934592:ℚ)) =
        .val (5368709/1073741824) := by
      have hd : F32.div (.val (42949672:ℚ)) (.val (8589934592:ℚ)) =
          .val (42949672/8589934592) := by
        norm_num [F32.div]
      simp only [F32.fdiv, hd]
      simp only [roundF32]
      rw [if_pos (by norm_num : (0:ℚ) < 42949672/8589934592)]
      apply roundF32pos_eval _ _ (-8) (-31) 10737418 (by norm_num)
      · norm_num
      · norm_num
      · decide
      · rw [show (42949672/8589934592:ℚ) * (2:ℚ)^(-(-31:ℤ)) =
            ((10737418 : ℤ) : ℚ) by norm_num]
        exact roundHalfEven_intCast 10737418
      · norm_num [f32Max]
      · norm_num
    have hmul : F32.fmul (.val (5368709/1073741824 : ℚ)) (.val (100:ℚ)) =
        .val (1/2) := by
      have hm : F32.mul (.val (5368709/1073741824 : ℚ)) (.val (100:ℚ)) =
          .val (5368709/1073741824 * 100) := by
        simp [F32.mul]
      simp only [F32.fmul, hm]
      simp only [roundF32]
      rw [if_pos (by norm_num : (0:ℚ) < 5368709/1073741824 * 100)]
      apply roundF32pos_eval _ _ (-2) (-25) 16777216 (by norm_num)
      · norm_num
      · norm_num
      · decide
      · rw [show (5368709/1073741824 * 100 : ℚ) * (2:ℚ)^(-(-25:ℤ)) =
            134217725/8 by norm_num]
        unfold roundHalfEven
        norm_num
      · norm_num [f32Max]
      · norm_num
    unfold used_memory_percentage_f32
    rw [h1, h2, h100, hdiv, hmul]
    rw [show F32.round (.val (1/2 : ℚ)) =
        .val ((roundHalfAway (1/2) : ℤ) : ℚ) from rfl]
    rw [show roundHalfAway (1/2 : ℚ) = 1 by norm_num [roundHalfAway]]
    norm_num [rustAsI8, ratTrunc]
  · norm_num [roundHalfAway]

/-- C6 (amended): for every u64 memory pair with used ≤ total and total > 0, the
used-memory percentage computed by the collector under bit-accurate binary32
semantics lies in the interval [0, 100]; it need not equal the exact
round(used/total × 100), since the f32 rounding of the quotient and product can
shift the value across a half-integer boundary (see the counterexample, where
the program stores 1 but the exact rounding is 0). -/
theorem c6_percentage_f32_in_range (used total : ℕ) (hle : used ≤ total)
    (hpos : 0 < total) (h64 : total < 2^64) :
    0 ≤ used_memory_percentage_f32 used total ∧
    used_memory_percentage_f32 used total ≤ 100 := by
  have hQt64 : ((total : ℕ) : ℚ) ≤ (2:ℚ)^(64:ℕ) := by
    have h1 : ((total : ℕ) : ℚ) < ((2^64 : ℕ) : ℚ) := by exact_mod_cast h64
    have h2 : ((2^64 : ℕ) : ℚ) = (2:ℚ)^(64:ℕ) := by push_cast; norm_num
    linarith [h2 ▸ h1]
  have hQu : ((used : ℕ) : ℚ) ≤ ((total : ℕ) : ℚ) := by exact_mod_cast hle
  have hQu0 : (0:ℚ) ≤ ((used : ℕ) : ℚ) := Nat.cast_nonneg used
  obtain ⟨u, hu, hu0⟩ := roundF32_val_spec ((used : ℕ) : ℚ) hQu0 (hQu.trans hQt64)
  obtain ⟨t, ht, ht0⟩ := roundF32_val_spec ((total : ℕ) : ℚ) (Nat.cast_nonneg total) hQt64
  have hut : u ≤ t := roundF32_mono _ _ _ _ hQu0 hQu hu ht
  have ht1 : (1:ℚ) ≤ t := by
    refine roundF32_mono 1 ((total : ℕ) : ℚ) 1 t (by norm_num) ?_ roundF32_one ht
    exact_mod_cast hpos
  have htpos : (0:ℚ) < t := lt_of_lt_of_le one_pos ht1
  have hdivQ : F32.div (.val u) (.val t) = .val (u / t) := by
    simp [F32.div, ne_of_gt htpos]
  have hratio0 : 0 ≤ u / t := div_nonneg hu0 (le_of_lt htpos)
  have hratio1 : u / t ≤ 1 := div_le_one_of_le₀ hut (le_of_lt htpos)
  obtain ⟨d, hd, hd0⟩ := roundF32_val_spec (u / t) hratio0
    (hratio1.trans (by norm_num))
  have hd1 : d ≤ 1 := roundF32_mono (u / t) 1 d 1 hratio0 hratio1 hd roundF32_one
  have hfdiv : F32.fdiv (.val u) (.val t) = .val d := by
    simp only [F32.fdiv, hdivQ]
    exact hd
  have hmulQ : F32.mul (.val d) (.val 100) = .val (d * 100) := by
    simp [F32.mul]
  have hp0 : 0 ≤ d * 100 := by linarith
  have hp100 : d * 100 ≤ 100 := by linarith
  obtain ⟨p, hp, hpge⟩ := roundF32_val_spec (d * 100) hp0
    (hp100.trans (by norm_num))
  have hple : p ≤ 100 := roundF32_mono (d * 100) 100 p 100 hp0 hp100 hp
    roundF32_hundred
  have hfmul : F32.fmul (.val d) (.val 100) = .val p := by
    simp only [F32.fmul, hmulQ]
    exact hp
  have h100 : F32.ofNat64 100 = .val 100 := by
    show roundF32 ((100 : ℕ) : ℚ) = _
    rw [show ((100 : ℕ) : ℚ) = 100 by norm_num]
    exact roundF32_hundred
  have hu' : F32.ofNat64 used = .val u := hu
  have ht' : F32.ofNat64 total = .val t := ht
  unfold used_memory_percentage_f32
  rw [hu', ht', h100, hfdiv, hfmul]
  rw [show F32.round (.val p) = .val ((roundHalfAway p : ℤ) : ℚ) from rfl]
  have hr0 : 0 ≤ roundHalfAway p := roundHalfAway_nonneg p hpge
  have hr100 : roundHalfAway p ≤ 100 :=
    roundHalfAway_le_of_le p 100 hpge (by exact_mod_cast hple)
  have hres : rustAsI8 (.val ((roundHalfAway p : ℤ) : ℚ)) = roundHalfAway p := by
    simp only [rustAsI8, ratTrunc_intCast]
    rw [min_eq_right (by omega : roundHalfAway p ≤ 127),
      max_eq_right (by omega : (-128 : ℤ) ≤ roundHalfAway p)]
  rw [hres]
  exact ⟨hr0, hr100⟩

/-- Witness for C6 (amended) at used 1, total 4. -/
theorem c6_witness :
    (1 : ℕ) ≤ 4 ∧ (0 : ℕ) < 4 ∧ (4 : ℕ) < 2^64 ∧
    (0 ≤ used_memory_percentage_f32 1 4 ∧ used_memory_percentage_f32 1 4 ≤ 100) :=
  ⟨by decide, by decide, by decide,
    c6_percentage_f32_in_range 1 4 (by decide) (by decide) (by decide)⟩

/-- C7: with total 0 the percentage computation produces a fixed defined value
(0 from the 0/0 NaN, 127 from the saturated infinity), never an arbitrary or
out-of-range quantity, so no NaN or garbage reaches the stored snapshot (whose
percentage field is an integer). -/
theorem c7_total_zero_defined (used : ℕ) :
    used_memory_percentage used 0 = (if used = 0 then 0 else 127) ∧
    0 ≤ used_memory_percentage used 0 ∧ used_memory_percentage used 0 ≤ 127 := by
  refine ⟨ump_total_zero used, ?_, ?_⟩ <;> rw [ump_total_zero used] <;>
    by_cases h : used = 0 <;> simp [h]

/-- C10: for every pair of u64 inputs the stored percentage is an i8 value in
`[0, 127]`: the `as i8` conversion saturates at the bounds instead of wrapping,
and the NaN arising from 0/0 maps to 0. -/
theorem c10_percentage_saturating_range :
    (∀ used total : ℕ,
      0 ≤ used_memory_percentage used total ∧
      used_memory_percentage used total ≤ 127) ∧
    used_memory_percentage 0 0 = 0 ∧
    (∀ used total : ℕ, 0 < total →
      127 < roundHalfAway ((used : ℚ) / (total : ℚ) * 100) →
      used_memory_percentage used total = 127) := by
  refine ⟨?_, ?_, ?_⟩
  · intro used total
    rcases Nat.eq_zero_or_pos total with h0 | hpos
    · subst h0
      rw [ump_total_zero used]
      by_cases h : used = 0 <;> simp [h]
    · have hq0 : 0 ≤ (used : ℚ) / (total : ℚ) * 100 := by positivity
      have hr0 : 0 ≤ roundHalfAway ((used : ℚ) / (total : ℚ) * 100) :=
        roundHalfAway_nonneg _ hq0
      rw [ump_eq_clamped used total hpos]
      constructor
      · exact le_max_of_le_right (le_min (by omega) hr0)
      · exact max_le (by omega) (min_le_left _ _)
  · rw [ump_total_zero 0]
    simp
  · intro used total hpos hbig
    rw [ump_eq_clamped used total hpos,
      min_eq_left (le_of_lt hbig), max_eq_right (by omega : (-128 : ℤ) ≤ 127)]

/-- Witness for C10's saturation clause at used 2, total 1 (200% saturates to 127). -/
theorem c10_witness :
    (0 : ℕ) < 1 ∧ (127 : ℤ) < roundHalfAway (((2 : ℕ) : ℚ) / ((1 : ℕ) : ℚ) * 100) ∧
    used_memory_percentage 2 1 = 127 :=
  ⟨by decide,
    by norm_num [roundHalfAway],
    c10_percentage_saturating_range.2.2 2 1 (by decide) (by norm_num [roundHalfAway])⟩

/-- C3: collection is all-or-nothing. `statscheck` returns a snapshot pair
exactly when device index 0 exists and every property query (memory info, name,
temperature, both clocks, fan speed, power usage) succeeds; otherwise it returns
a typed error — the result type admits no partial snapshot. -/
theorem c3_statscheck_all_or_nothing (system : System) (nvml : Nvml) :
    ((∃ pr, statscheck system nvml = Except.ok pr) ↔
      (∃ d, nvml.device_by_index 0 = Except.ok d ∧
        (∃ mi, d.memory_info = Except.ok mi) ∧
        (∃ nm, d.name = Except.ok nm) ∧
        (∃ t, d.temperature TemperatureSensor.Gpu = Except.ok t) ∧
        (∃ cg, d.clock_info Clock.Graphics = Except.ok cg) ∧
        (∃ cm, d.clock_info Clock.Memory = Except.ok cm) ∧
        (∃ f, d.fan_speed 0 = Except.ok f) ∧
        (∃ p, d.power_usage = Except.ok p))) ∧
    ((∃ pr, statscheck system nvml = Except.ok pr) ∨
      (∃ e, statscheck system nvml = Except.error e)) := by
  constructor
  · constructor
    · rintro ⟨pr, hpr⟩
      rcases hdev : nvml.device_by_index 0 with e | d
      · simp [statscheck, hdev] at hpr
      rcases hmi : d.memory_info with e | mi
      · simp [statscheck, hdev, hmi] at hpr
      rcases hnm : d.name with e | nm
      · simp [statscheck, hdev, hmi, hnm] at hpr
      rcases ht : d.temperature TemperatureSensor.Gpu with e | t
      · simp [statscheck, hdev, hmi, hnm, ht] at hpr
      rcases hcg : d.clock_info Clock.Graphics with e | cg
      · simp [statscheck, hdev, hmi, hnm, ht, hcg] at hpr
      rcases hcm : d.clock_info Clock.Memory with e | cm
      · simp [statscheck, hdev, hmi, hnm, ht, hcg, hcm] at hpr
      rcases hf : d.fan_speed 0 with e | f
      · simp [statscheck, hdev, hmi, hnm, ht, hcg, hcm, hf] at hpr
      rcases hp : d.power_usage with e | p
      · simp [statscheck, hdev, hmi, hnm, ht, hcg, hcm, hf, hp] at hpr
      exact ⟨d, rfl, ⟨mi, hmi⟩, ⟨nm, hnm⟩, ⟨t, ht⟩, ⟨cg, hcg⟩, ⟨cm, hcm⟩,
        ⟨f, hf⟩, ⟨p, hp⟩⟩
    · rintro ⟨d, hdev, ⟨mi, hmi⟩, ⟨nm, hnm⟩, ⟨t, ht⟩, ⟨cg, hcg⟩, ⟨cm, hcm⟩,
        ⟨f, hf⟩, ⟨p, hp⟩⟩
      rcases hsc : statscheck system nvml with e | pr
      · simp [statscheck, hdev, hmi, hnm, ht, hcg, hcm, hf, hp] at hsc
      · exact ⟨pr, rfl⟩
  · rcases hsc : statscheck system nvml with e | pr
    · exact Or.inr ⟨e, rfl⟩
    · exact Or.inl ⟨pr, rfl⟩

/-- When the post-drain state is hidden, `update` takes the early return: no
collection, no drawing, repaint requested after one second. -/
lemma update_hidden (a : StatsApp) (now : ℕ) (events : List ℕ)
    (h : applyEvents a.custom_hotkey events a.visible = false) :
    a.update now events =
      some ({ a with
                fps_counter := if a.visible then a.fps_counter.update now
                  else a.fps_counter,
                visible := false },
            { frame_recorded := a.visible, collect_invoked := false,
              panel_drawn := false, repaint_after := 1000 }) := by
  simp [StatsApp.update, h]

/-- When the post-drain state is visible and less than a second has elapsed,
`update` draws without collecting and requests a 16 ms repaint. -/
lemma update_visible_norefresh (a : StatsApp) (now : ℕ) (events : List ℕ)
    (h : applyEvents a.custom_hotkey events a.visible = true)
    (h2 : now - a.last_refresh < 1000) :
    a.update now events =
      some ({ a with
                fps_counter := if a.visible then a.fps_counter.update now
                  else a.fps_counter,
                visible := true },
            { frame_recorded := a.visible, collect_invoked := false,
              panel_drawn := true, repaint_after := 16 }) := by
  simp [StatsApp.update, h, Nat.not_le.mpr h2]

/-- When the post-drain state is visible, at least a second has elapsed and
collection succeeds, `update` stores the new snapshots and advances the
refresh timestamp. -/
lemma update_visible_refresh_ok (a : StatsApp) (now : ℕ) (events : List ℕ)
    (g : GpuStats) (c : CpuStats)
    (h : applyEvents a.custom_hotkey events a.visible = true)
    (h2 : 1000 ≤ now - a.last_refresh)
    (hok : statscheck a.system a.nvml = Except.ok (g, c)) :
    a.update now events =
      some ({ a with
                fps_counter := if a.visible then a.fps_counter.update now
                  else a.fps_counter,
                visible := true,
                gpu_stats := g,
                cpu_stats := c,
                last_refresh := now },
            { frame_recorded := a.visible, collect_invoked := true,
              panel_drawn := true, repaint_after := 16 }) := by
  simp [StatsApp.update, h, h2, StatsApp.refresh_stats, hok]

/-- When the post-drain state is visible, at least a second has elapsed and
collection fails, the `.unwrap()` in `refresh_stats` panics: `update` produces
no successor state at all. -/
lemma update_visible_refresh_err (a : StatsApp) (now : ℕ) (events : List ℕ)
    (e : NvmlError)
    (h : applyEvents a.custom_hotkey events a.visible = true)
    (h2 : 1000 ≤ now - a.last_refresh)
    (herr : statscheck a.system a.nvml = Except.error e) :
    a.update now events = none := by
  simp [StatsApp.update, h, h2, StatsApp.refresh_stats, herr]

/-- The hidden early return, packaged with the facts the sequence induction needs:
the successor state exists, stays hidden and keeps the registered hotkey. -/
lemma update_hidden_ex (a : StatsApp) (now : ℕ) (events : List ℕ)
    (h : applyEvents a.custom_hotkey events a.visible = false) :
    ∃ a1, a.update now events =
        some (a1, { frame_recorded := a.visible, collect_invoked := false,
                    panel_drawn := false, repaint_after := 1000 }) ∧
      a1.visible = false ∧ a1.custom_hotkey = a.custom_hotkey :=
  ⟨_, update_hidden a now events h, rfl, rfl⟩

/-- C1 counterexample: with a provider whose collection fails, an invocation that
triggers collection does crash — `refresh_stats` unwraps the error and the
update panics (`none`), instead of absorbing the failure and advancing the
refresh timestamp as claimed. -/
theorem c1_counterexample :
    statscheck failApp.system failApp.nvml = Except.error NvmlError.unknown ∧
    applyEvents failApp.custom_hotkey [] failApp.visible = true ∧
    1000 ≤ 1000 - failApp.last_refresh ∧
    failApp.update 1000 [] = none := by
  refine ⟨rfl, rfl, by decide, rfl⟩

/-- C1 (amended): in every invocation in which the stats collection is triggered
(post-drain visible, ≥ 1 s elapsed) and the collection fails, `refresh_stats`
unwraps the error and the render loop panics: no successor state exists, so the
previous snapshots are never overwritten but the refresh timestamp is not
advanced and the failure is not absorbed. -/
theorem c1_collection_failure_panics (a : StatsApp) (now : ℕ) (events : List ℕ)
    (e : NvmlError)
    (hvis : applyEvents a.custom_hotkey events a.visible = true)
    (helapsed : 1000 ≤ now - a.last_refresh)
    (hfail : statscheck a.system a.nvml = Except.error e) :
    a.update now events = none :=
  update_visible_refresh_err a now events e hvis helapsed hfail

/-- Witness for C1 (amended) at the concrete failing app, time 1500. -/
theorem c1_witness :
    applyEvents failApp.custom_hotkey [] failApp.visible = true ∧
    1000 ≤ 1500 - failApp.last_refresh ∧
    statscheck failApp.system failApp.nvml = Except.error NvmlError.unknown ∧
    failApp.update 1500 [] = none :=
  ⟨rfl, by decide, rfl,
    c1_collection_failure_panics failApp 1500 [] NvmlError.unknown rfl (by decide) rfl⟩

/-- C5: an invocation whose post-drain state is hidden never invokes the
collector (whatever the elapsed time), draws no panel and requests the next
invocation one second later; and a run of consecutive hidden-state invocations
(hidden at entry, each step draining an even number of matching events) never
invokes the collector at any step. -/
theorem c5_hidden_no_collection :
    (∀ (a : StatsApp) (now : ℕ) (events : List ℕ),
      applyEvents a.custom_hotkey events a.visible = false →
      ∃ a', a.update now events =
        some (a', { frame_recorded := a.visible, collect_invoked := false,
                    panel_drawn := false, repaint_after := 1000 })) ∧
    (∀ (a : StatsApp) (inputs : List (ℕ × List ℕ)),
      a.visible = false →
      (∀ p ∈ inputs, p.2.count a.custom_hotkey % 2 = 0) →
      ∃ a' outs, a.run inputs = some (a', outs) ∧ a'.visible = false ∧
        ∀ o ∈ outs, o.collect_invoked = false ∧ o.panel_drawn = false ∧
          o.repaint_after = 1000) := by
  constructor
  · intro a now events h
    exact ⟨_, update_hidden a now events h⟩
  · intro a inputs
    induction inputs generalizing a with
    | nil =>
      intro hvis _
      exact ⟨a, [], rfl, hvis, by simp⟩
    | cons p rest ih =>
      intro hvis hall
      obtain ⟨now, evs⟩ := p
      have heven : evs.count a.custom_hotkey % 2 = 0 := hall (now, evs) (by simp)
      have hpost : applyEvents a.custom_hotkey evs a.visible = false := by
        rw [applyEvents_count, if_pos heven]
        exact hvis
      obtain ⟨a1, hupd, h1vis, h1hk⟩ := update_hidden_ex a now evs hpost
      obtain ⟨a', outs, hrun, hvis', houts⟩ :=
        ih a1 h1vis (fun q hq => by rw [h1hk]; exact hall q (List.mem_cons_of_mem _ hq))
      refine ⟨a',
        { frame_recorded := a.visible, collect_invoked := false,
          panel_drawn := false, repaint_after := 1000 } :: outs, ?_, hvis', ?_⟩
      · simp [StatsApp.run, hupd, hrun]
      · intro o ho
        rcases List.mem_cons.mp ho with rfl | ho'
        · exact ⟨rfl, rfl, rfl⟩
        · exact houts o ho'

/-- Witness for C5 at the concrete hidden app over one invocation at time 2000
(an elapsed time well past one second). -/
theorem c5_witness :
    hiddenApp.visible = false ∧
    (∀ p ∈ [((2000 : ℕ), ([] : List ℕ))], p.2.count hiddenApp.custom_hotkey % 2 = 0) ∧
    (∃ a' outs, hiddenApp.run [(2000, [])] = some (a', outs) ∧ a'.visible = false ∧
      ∀ o ∈ outs, o.collect_invoked = false ∧ o.panel_drawn = false ∧
        o.repaint_after = 1000) :=
  ⟨rfl, by decide,
    c5_hidden_no_collection.2 hiddenApp [(2000, [])] rfl (by decide)⟩

/-- C8 counterexample: with the overlay visible and one matching event pending,
the invocation increments the FPS tally (0 to 1) and records a frame even though
its post-drain state is hidden — the frame is recorded before the events are
drained, contradicting the claimed drain-then-record order. -/
theorem c8_counterexample :
    (baseApp.update 0 [7]).map
        (fun p => (p.1.fps_counter.frames, p.1.visible, p.2.frame_recorded)) =
      some (1, false, true) := rfl

/-- C8 (amended): the FPS frame is recorded before the pending hotkey events are
drained, gated on the visibility at entry: a frame is recorded exactly when the
overlay was visible at entry, an invocation entering hidden leaves the FPS
counter untouched (the displayed rate freezes), and an invocation entering
visible runs `fps_counter.update` even when a drained event hides the overlay. -/
theorem c8_fps_recorded_before_drain (a : StatsApp) (now : ℕ) (events : List ℕ)
    (a' : StatsApp) (o : UpdateOutput)
    (h : a.update now events = some (a', o)) :
    o.frame_recorded = a.visible ∧
    (a.visible = false → a'.fps_counter = a.fps_counter) ∧
    (a.visible = true → a'.fps_counter = a.fps_counter.update now) := by
  by_cases hv : applyEvents a.custom_hotkey events a.visible = false
  · rw [update_hidden a now events hv] at h
    simp only [Option.some.injEq, Prod.mk.injEq] at h
    obtain ⟨h1, h2⟩ := h
    subst h1; subst h2
    refine ⟨rfl, ?_, ?_⟩ <;> intro hva <;> simp [hva]
  · rw [Bool.not_eq_false] at hv
    by_cases h2 : 1000 ≤ now - a.last_refresh
    · rcases hsc : statscheck a.system a.nvml with e | gc
      · rw [update_visible_refresh_err a now events e hv h2 hsc] at h
        simp at h
      · obtain ⟨g, c⟩ := gc
        rw [update_visible_refresh_ok a now events g c hv h2 hsc] at h
        simp only [Option.some.injEq, Prod.mk.injEq] at h
        obtain ⟨h1, h3⟩ := h
        subst h1; subst h3
        refine ⟨rfl, ?_, ?_⟩ <;> intro hva <;> simp [hva]
    · rw [update_visible_norefresh a now events hv (Nat.not_le.mp h2)] at h
      simp only [Option.some.injEq, Prod.mk.injEq] at h
      obtain ⟨h1, h3⟩ := h
      subst h1; subst h3
      refine ⟨rfl, ?_, ?_⟩ <;> intro hva <;> simp [hva]

/-- Witness for C8 (amended) at the fresh visible app, time 500, no events. -/
theorem c8_witness :
    baseApp.update 500 [] =
      some ({ baseApp with
                fps_counter := baseApp.fps_counter.update 500,
                visible := true },
            { frame_recorded := true, collect_invoked := false,
              panel_drawn := true, repaint_after := 16 }) ∧
    (({ frame_recorded := true, collect_invoked := false,
        panel_drawn := true, repaint_after := 16 } : UpdateOutput).frame_recorded =
          baseApp.visible ∧
      (baseApp.visible = false →
        ({ baseApp with
             fps_counter := baseApp.fps_counter.update 500,
             visible := true } : StatsApp).fps_counter = baseApp.fps_counter) ∧
      (baseApp.visible = true →
        ({ baseApp with
             fps_counter := baseApp.fps_counter.update 500,
             visible := true } : StatsApp).fps_counter =
          baseApp.fps_counter.update 500)) :=
  ⟨rfl, c8_fps_recorded_before_drain baseApp 500 [] _ _ rfl⟩

/-- Witness for C3 at the concrete sample providers. -/
theorem c3_witness :
    (∃ pr, statscheck sampleSystem sampleNvml = Except.ok pr) ∨
      (∃ e, statscheck sampleSystem sampleNvml = Except.error e) :=
  (c3_statscheck_all_or_nothing sampleSystem sampleNvml).2

/-- Witness for C7 at used 5, total 0. -/
theorem c7_witness :
    used_memory_percentage 5 0 = (if (5 : ℕ) = 0 then 0 else 127) ∧
    0 ≤ used_memory_percentage 5 0 ∧ used_memory_percentage 5 0 ≤ 127 :=
  c7_total_zero_defined 5

/-- Witness for C9 at a concrete initialization error. -/
theorem c9_witness :
    main_flow (Except.error NvmlError.unknown) =
      { logged_init_failure := true, window_created := false,
        entered_render_loop := false, exited_ok := true } :=
  c9_fatal_init_clean_exit NvmlError.unknown
